/-
Verification of the molbubi.info snapshot ingestion and movement/stay
detection pipeline (service `data-processor`).

Shallow embedding notes:
- Timestamps are modelled as rationals (epoch seconds).  The source converts
  epoch floats to UTC datetimes with `datetime.fromtimestamp(t, tz=utc)`,
  a strictly monotone injection, so rows store the epoch value directly.
- Coordinates and distances are modelled as real numbers; the geodesic
  functions mirror `math.sin`, `math.cos`, `math.sqrt`, `math.atan2` and
  `math.radians` over the reals.
- The relational store is modelled as: a map from station uid to the station
  row (uid is the primary key), and insertion-ordered lists of movement and
  stay rows.  The Redis cache is a map from bike number to its BikeState,
  plus a map from station uid to its occupancy set.
- The pydantic schema `BikeState` (app/schemas/bike_data.py, lines 30-35)
  has exactly two fields, `station_uid` and `timestamp`.  Reading the
  missing attribute `stay_start_time` on it raises AttributeError, and
  passing an extra `stay_start_time` key to the constructor silently drops
  it (pydantic default extra behaviour).  The embedding reflects both facts.
- The db model module of the service (app/db/models.py) defines only the
  Station and BikeMovement classes.  The class `models.BikeStay`, which
  app/db/repository.py references, does not exist, so the stay query at
  processing.py line 50 raises AttributeError on every detection call.
  The embedding reflects this: the detector never reaches its branches.
- Python exceptions are modelled by a Bool success flag: a raising step
  returns the state as mutated so far together with `false`, and enclosing
  loops stop, mirroring exception propagation out of `process_snapshot`.
-/
import Mathlib

/-! ## Inbound snapshot schema (app/schemas/bike_data.py) -/

/-- Schema `Bike`: one docked bike, identified by its number. -/
structure Bike where
  number : String
deriving DecidableEq, Repr

/-- Schema `Station` (inbound snapshot entry): uid, coordinates, name, the
spot flag and the list of docked bikes.  Named `StationSchema` as in
`app/db/repository.py` to keep it apart from the db row `Station`. -/
structure StationSchema where
  uid : Int
  lat : ℝ
  lng : ℝ
  name : String
  spot : Bool
  bike_list : List Bike

/-- Schema `City`: a list of places (stations). -/
structure City where
  places : List StationSchema

/-- Schema `Country`: a list of cities. -/
structure Country where
  cities : List City

/-- Schema `ApiResponse`: one full snapshot, a list of countries. -/
structure ApiResponse where
  countries : List Country

/-- Schema `BikeState` (bike_data.py lines 30-35): the per-bike cache entry.
The source schema has exactly these two fields; in particular it has no
`stay_start_time` field. -/
structure BikeState where
  station_uid : Int
  timestamp : ℚ
deriving DecidableEq, Repr

/-! ## Durable rows (app/db/models.py and the BikeStay rows used by
`app/db/repository.py`) -/

/-- Db row `Station`: uid (primary key), name, coordinates. -/
structure Station where
  uid : Int
  name : String
  lat : ℝ
  lng : ℝ

/-- Db row `BikeMovement`: one completed transition between two stations. -/
structure BikeMovement where
  bike_number : String
  start_station_uid : Int
  end_station_uid : Int
  start_time : ℚ
  end_time : ℚ
  distance_km : ℝ

/-- Db row `BikeStay`: a parking interval; `end_time = none` marks an
active (ongoing) stay.  This is the row type that repository.py (lines
75-93) and the repo migrations (the bike_stays table) intend;
app/db/models.py of this service does NOT define the class, which is why
the stay-writing path of the detector raises instead of running. -/
structure BikeStay where
  bike_number : String
  station_uid : Int
  start_time : ℚ
  end_time : Option ℚ
deriving DecidableEq, Repr

/-- The combined durable store and cache state threaded through the
pipeline: the stations table (keyed by uid), the movement and stay tables
(insertion ordered), the per-bike state hash and the per-station occupancy
sets held in Redis. -/
@[ext]
structure SysState where
  stations : Int → Option Station
  stays : List BikeStay
  movements : List BikeMovement
  cache : String → Option BikeState
  occupancy : Int → Finset String

/-- The initially empty cache and store. -/
def emptyState : SysState :=
  { stations := fun _ => none
    stays := []
    movements := []
    cache := fun _ => none
    occupancy := fun _ => ∅ }

/-! ## Geospatial utility -/

/-- Function `math.radians`: degrees to radians. -/
noncomputable def radians (x : ℝ) : ℝ := x * Real.pi / 180

/-- Function `math.atan2` over the reals (the C/IEEE convention on
quadrants, with atan2 0 0 = 0). -/
noncomputable def atan2 (y x : ℝ) : ℝ :=
  if 0 < x then Real.arctan (y / x)
  else if x < 0 then
    (if 0 ≤ y then Real.arctan (y / x) + Real.pi
     else Real.arctan (y / x) - Real.pi)
  else
    (if 0 < y then Real.pi / 2
     else if y < 0 then -(Real.pi / 2)
     else 0)

/-- Function `haversine_distance` (app/services/consumer.py lines 17-26):
distance in kilometers between two lat/lng points given in degrees. -/
noncomputable def haversine_distance (lat1 lon1 lat2 lon2 : ℝ) : ℝ :=
  let R : ℝ := 6371
  let dLat := radians (lat2 - lat1)
  let dLon := radians (lon2 - lon1)
  let a := Real.sin (dLat / 2) * Real.sin (dLat / 2) +
    Real.cos (radians lat1) * Real.cos (radians lat2) *
      (Real.sin (dLon / 2) * Real.sin (dLon / 2))
  let c := 2 * atan2 (Real.sqrt a) (Real.sqrt (1 - a))
  R * c

namespace ProcessingService

/-- Static method `ProcessingService._haversine_distance`
(app/services/processing.py lines 122-134); it writes the squares with
`** 2` where the consumer copy multiplies the factor by itself. -/
noncomputable def haversine_distance (lat1 lon1 lat2 lon2 : ℝ) : ℝ :=
  let R : ℝ := 6371
  let dLat := radians (lat2 - lat1)
  let dLon := radians (lon2 - lon1)
  let a := Real.sin (dLat / 2) ^ 2 +
    Real.cos (radians lat1) * Real.cos (radians lat2) *
      Real.sin (dLon / 2) ^ 2
  let c := 2 * atan2 (Real.sqrt a) (Real.sqrt (1 - a))
  R * c

end ProcessingService

/-- Modelled from the spec: the haversine formula exactly as the spec
words it ("a = sin²(Δlat/2) + cos(lat1)·cos(lat2)·sin²(Δlng/2);
c = 2·atan2(√a, √(1-a)); distance_km = c × 6371" over degree inputs
converted to radians), stated independently of the source for the
refinement comparison in claim C9. -/
noncomputable def spec_haversine (lat1 lon1 lat2 lon2 : ℝ) : ℝ :=
  let a := Real.sin (radians (lat2 - lat1) / 2) ^ 2 +
    Real.cos (radians lat1) * Real.cos (radians lat2) *
      Real.sin (radians (lon2 - lon1) / 2) ^ 2
  let c := 2 * atan2 (Real.sqrt a) (Real.sqrt (1 - a))
  c * 6371

/-! ## Repository layer (app/db/repository.py) -/

/-- Predicate selecting the active (open) stays of one bike:
`bike_number == b AND end_time IS NULL`. -/
def openPred (b : String) : BikeStay → Bool :=
  fun s => decide (s.bike_number = b ∧ s.end_time = none)

namespace StationRepository

/-- Method `StationRepository.upsert` (repository.py lines 26-38): create
the station row if the uid is unseen, else refresh name/lat/lng.  Both
branches leave the row at key `uid` holding the snapshot values. -/
def upsert (stations : Int → Option Station) (p : StationSchema) :
    Int → Option Station :=
  Function.update stations p.uid (some ⟨p.uid, p.name, p.lat, p.lng⟩)

end StationRepository

/-- Table-level semantics of one `end_stay` update, used only to give the
`stayEnd` effect constructor of the consumer alphabet its replay meaning:
set `end_time` on the first stay row of the bike with `end_time IS NULL`
(the row `BikeStayRepository.end_stay` would update).  No code of this
service ever performs the update successfully: `BikeStayRepository`
(repository.py lines 75-93) references `models.BikeStay`, a class that
app/db/models.py does not define, so `find_active_stay` raises
AttributeError on every call instead of returning a row. -/
def endFirstOpenStay (stays : List BikeStay) (b : String) (t : ℚ) :
    List BikeStay :=
  match stays with
  | [] => []
  | s :: rest =>
    if openPred b s then { s with end_time := some t } :: rest
    else s :: endFirstOpenStay rest b t

namespace RedisRepository

/-- Method `RedisRepository.set_bike_state` (repository.py lines 62-64):
`BikeState(**state_data)` keeps only the two schema fields, so any
`stay_start_time` key in the dict is silently dropped, and the hash stores
station uid and timestamp. -/
def set_bike_state (cache : String → Option BikeState) (b : String)
    (station_uid : Int) (timestamp : ℚ) : String → Option BikeState :=
  Function.update cache b (some ⟨station_uid, timestamp⟩)

/-- Method `RedisRepository.update_station_occupancy` (repository.py lines
66-72): delete the station occupancy set and refill it with the current
bike numbers (clear-then-fill replace). -/
def update_station_occupancy (occ : Int → Finset String) (uid : Int)
    (bikes : Finset String) : Int → Finset String :=
  Function.update occ uid bikes

end RedisRepository

/-- The set comprehension `{bike.number for bike in station.bike_list}`
(processing.py line 36, consumer.py lines 105-107). -/
def bikeNumbersOf (p : StationSchema) : Finset String :=
  (p.bike_list.map Bike.number).toFinset

/-! ## Movement/Stay Detector (app/services/processing.py) -/

namespace ProcessingService

/-- Method `ProcessingService._detect_and_record_movement` (processing.py
lines 46-120).  The Bool is the success flag: `false` means the call
raised.  Line 47 reads the cached state (a Redis read, no write).  Line 50
then calls `BikeStayRepository.find_active_stay`, whose body
`self.db.query(models.BikeStay)` evaluates `models.BikeStay` - a class
that app/db/models.py does not define (the module has only Station and
BikeMovement).  Every call therefore raises AttributeError at line 50,
before any of the stay, movement or cache logic of lines 52-120 can run,
and performs no write at all.  (Had the query worked, the no-move branch
would still raise at line 68, because the BikeState schema has no
`stay_start_time` field.) -/
def detect_and_record_movement (st : SysState)
    (bike_number : String) (current_station_uid : Int)
    (current_timestamp : ℚ) : SysState × Bool :=
  let _ := (st.cache bike_number, current_station_uid, current_timestamp)
  (st, false)

/-- The inner bike loop of `process_snapshot` (processing.py lines 41-44):
run per-bike detection for every docked bike; an exception aborts the
remaining iterations. -/
def detect_all (st : SysState) (bikes : List Bike) (uid : Int)
    (now : ℚ) : SysState × Bool :=
  match bikes with
  | [] => (st, true)
  | bk :: rest =>
    match detect_and_record_movement st bk.number uid now with
    | (st1, true) => detect_all st1 rest uid now
    | (st1, false) => (st1, false)

/-- One station iteration of `process_snapshot` (processing.py lines
30-44): skip entries with `spot = false` entirely, else upsert the station
row, replace the occupancy set and detect each docked bike. -/
def process_place (st : SysState) (p : StationSchema)
    (now : ℚ) : SysState × Bool :=
  if p.spot = false then (st, true)
  else
    let st1 : SysState :=
      { st with stations := StationRepository.upsert st.stations p }
    let st2 : SysState :=
      { st1 with
        occupancy := RedisRepository.update_station_occupancy st1.occupancy
          p.uid (bikeNumbersOf p) }
    detect_all st2 p.bike_list p.uid now

/-- The station loop over a list of places, stopping at the first raise. -/
def process_places (st : SysState)
    (places : List StationSchema) (now : ℚ) : SysState × Bool :=
  match places with
  | [] => (st, true)
  | p :: rest =>
    match process_place st p now with
    | (st1, true) => process_places st1 rest now
    | (st1, false) => (st1, false)

end ProcessingService

/-- The cities of a snapshot in iteration order (the country loop). -/
def allCities : List Country → List City
  | [] => []
  | co :: rest => co.cities ++ allCities rest

/-- The places of a list of cities in iteration order (the city loop). -/
def allPlaces : List City → List StationSchema
  | [] => []
  | ci :: rest => ci.places ++ allPlaces rest

/-- The flattened station iteration order of the three nested loops in
`process_snapshot` (processing.py lines 28-30). -/
def placesOfSnapshot (snap : ApiResponse) : List StationSchema :=
  allPlaces (allCities snap.countries)

namespace ProcessingService

/-- Method `ProcessingService.process_snapshot` (processing.py lines
26-44): capture one processing time and run the nested station loops.
`ProcessingService` performs its occupancy update per station with no
city-level batching, so iterating the flattened place list is the same
nested iteration. -/
def process_snapshot (st : SysState) (snap : ApiResponse)
    (now : ℚ) : SysState × Bool :=
  process_places st (placesOfSnapshot snap) now

/-- A sequence of snapshots applied through `process_snapshot`, each with
its own captured processing time.  A raise aborts the remainder of that
snapshot only; the state as mutated so far carries over to the next
message, as it does across consumer deliveries. -/
def applySnapshots (st : SysState) :
    List (ApiResponse × ℚ) → SysState
  | [] => st
  | (snap, now) :: rest =>
    applySnapshots (process_snapshot st snap now).1 rest

end ProcessingService

/-- Number of closed stay rows of one bike at one station. -/
def closedAtCount (st : SysState) (b : String) (uid : Int) : Nat :=
  st.stays.countP (fun s =>
    decide (s.bike_number = b ∧ s.station_uid = uid ∧ s.end_time ≠ none))

/-! ## Snapshot Ingest Consumer (app/services/consumer.py)

The consumer performs external writes against Redis and Postgres; each
write is recorded as an `Effect` in execution order, and the state is
advanced by replaying the effect.  A persistence fault during handling is
a raise after some prefix of the writes has been committed, which
`handle_message` models with an optional cut index. -/

/-- One external write or broker operation performed by the consumer. -/
inductive Effect where
  | stationUpsert (row : Station)
  | occupancyReplace (uid : Int) (bikes : Finset String)
  | movementInsert (m : BikeMovement)
  | cacheSet (bike_number : String) (state : BikeState)
  | stayCreate (s : BikeStay)
  | stayEnd (bike_number : String) (t : ℚ)
  | xack (msg_id : String)
  | xtrim

/-- Replay one effect against the state. -/
def applyEffect (st : SysState) : Effect → SysState
  | .stationUpsert row =>
    { st with stations := Function.update st.stations row.uid (some row) }
  | .occupancyReplace uid bikes =>
    { st with occupancy := Function.update st.occupancy uid bikes }
  | .movementInsert m => { st with movements := st.movements ++ [m] }
  | .cacheSet b bs =>
    { st with cache := Function.update st.cache b (some bs) }
  | .stayCreate s => { st with stays := st.stays ++ [s] }
  | .stayEnd b t =>
    { st with stays := endFirstOpenStay st.stays b t }
  | .xack _ => st
  | .xtrim => st

/-- Replay a list of effects in order. -/
def applyEffects (st : SysState) (effs : List Effect) : SysState :=
  effs.foldl applyEffect st

/-- Parse or validation failure of an inbound message
(`json.JSONDecodeError` or pydantic `ValidationError`). -/
inductive ParseErr where
  | jsonDecode
  | validation
deriving DecidableEq, Repr

/-- Terminal disposition of one delivered message: processed and acked,
discarded (acked as poison), or left pending for redelivery. -/
inductive Outcome where
  | processed
  | discarded
  | pending
deriving DecidableEq, Repr

namespace DataConsumer

/-- Method `DataConsumer.detect_movement` (consumer.py lines 142-193):
compare against the cached state; on a station change look up both station
rows, compute the distance (0 if either row is missing) and insert the
movement; in every branch finish by writing the new cache state
`BikeState(station_uid, timestamp = now)`. -/
noncomputable def detect_movement (st : SysState) (bike_number : String)
    (current_station_uid : Int) (current_timestamp : ℚ) :
    SysState × List Effect :=
  let newState : BikeState := ⟨current_station_uid, current_timestamp⟩
  match st.cache bike_number with
  | some last =>
    if last.station_uid ≠ current_station_uid then
      let distance : ℝ :=
        match st.stations last.station_uid,
              st.stations current_station_uid with
        | some s, some e => haversine_distance s.lat s.lng e.lat e.lng
        | _, _ => 0
      let m : BikeMovement :=
        ⟨bike_number, last.station_uid, current_station_uid,
          last.timestamp, current_timestamp, distance⟩
      let st1 := applyEffect st (.movementInsert m)
      let st2 := applyEffect st1 (.cacheSet bike_number newState)
      (st2, [.movementInsert m, .cacheSet bike_number newState])
    else
      (applyEffect st (.cacheSet bike_number newState),
        [.cacheSet bike_number newState])
  | none =>
    (applyEffect st (.cacheSet bike_number newState),
      [.cacheSet bike_number newState])

/-- The bike loop of `handle_message` (consumer.py lines 113-117). -/
noncomputable def detect_bikes (st : SysState) (bikes : List Bike)
    (uid : Int) (now : ℚ) : SysState × List Effect :=
  match bikes with
  | [] => (st, [])
  | bk :: rest =>
    let r1 := detect_movement st bk.number uid now
    let r2 := detect_bikes r1.1 rest uid now
    (r2.1, r1.2 ++ r2.2)

/-- The station loop of `handle_message` (consumer.py lines 95-117): skip
`spot = false` entries, upsert the station, queue the occupancy replace on
the city pipeline (third component, applied only at `pipeline.execute`),
and run detection per bike. -/
noncomputable def handle_places (st : SysState)
    (places : List StationSchema) (now : ℚ) :
    SysState × List Effect × List Effect :=
  match places with
  | [] => (st, [], [])
  | p :: rest =>
    if p.spot = false then handle_places st rest now
    else
      let row : Station := ⟨p.uid, p.name, p.lat, p.lng⟩
      let st1 := applyEffect st (.stationUpsert row)
      let r2 := detect_bikes st1 p.bike_list p.uid now
      let r3 := handle_places r2.1 rest now
      (r3.1, .stationUpsert row :: (r2.2 ++ r3.2.1),
        .occupancyReplace p.uid (bikeNumbersOf p) :: r3.2.2)

/-- One city iteration (consumer.py lines 92-120): process the places,
then `pipeline.execute` applies the queued occupancy replaces. -/
noncomputable def handle_city (st : SysState) (ci : City) (now : ℚ) :
    SysState × List Effect :=
  let r := handle_places st ci.places now
  (applyEffects r.1 r.2.2, r.2.1 ++ r.2.2)

/-- The city loop over the flattened country list. -/
noncomputable def handle_cities (st : SysState) (cs : List City) (now : ℚ) :
    SysState × List Effect :=
  match cs with
  | [] => (st, [])
  | ci :: rest =>
    let r1 := handle_city st ci now
    let r2 := handle_cities r1.1 rest now
    (r2.1, r1.2 ++ r2.2)

/-- The successful processing body of `handle_message` (consumer.py lines
83-120): one captured processing time, then the nested country/city loops
over the validated snapshot. -/
noncomputable def handle_snapshot (st : SysState) (snap : ApiResponse)
    (now : ℚ) : SysState × List Effect :=
  handle_cities st (allCities snap.countries) now

/-- Method `DataConsumer.handle_message` (consumer.py lines 78-140).
Input `payload` is the result of `json.loads` plus
`ApiResponse.model_validate` on the raw message (parsing itself is
external pydantic code).  `fault` injects a persistence failure: `some k`
means the body raised after its first `k` writes were committed (each
write commits independently; no transaction spans the snapshot).
- Parse/validation failure (lines 127-133): log and `xack`; no trim call
  exists anywhere in the consumer; no writes happen.
- Success (lines 122-124): all body writes, then `xack`.
- Any other exception (lines 134-137): the committed prefix of writes
  stands, no `xack` is issued, and the method returns normally, so the
  message stays pending for redelivery. -/
noncomputable def handle_message (st : SysState) (msg_id : String)
    (payload : Except ParseErr ApiResponse) (now : ℚ)
    (fault : Option Nat) : SysState × List Effect × Outcome :=
  match payload with
  | .error _ => (st, [.xack msg_id], .discarded)
  | .ok snap =>
    let full := handle_snapshot st snap now
    match fault with
    | none => (full.1, full.2 ++ [.xack msg_id], .processed)
    | some k => (applyEffects st (full.2.take k), full.2.take k, .pending)

/-- One delivered stream message: id, parse result of its payload, the
wall-clock capture for its processing, and the injected fault, if any. -/
structure StreamMessage where
  msg_id : String
  payload : Except ParseErr ApiResponse
  now : ℚ
  fault : Option Nat

/-- Method `DataConsumer.process_messages` (consumer.py lines 55-76)
restricted to one read batch: every delivered message is handled in order;
`handle_message` catches all exceptions internally, so the loop always
reaches the next message.  Returns the final state and the per-message
effect trace and outcome. -/
noncomputable def process_messages (st : SysState) :
    List StreamMessage → SysState × List (List Effect × Outcome)
  | [] => (st, [])
  | msg :: rest =>
    let r1 := handle_message st msg.msg_id msg.payload msg.now msg.fault
    let r2 := process_messages r1.1 rest
    (r2.1, (r1.2.1, r1.2.2) :: r2.2)

end DataConsumer

/-! ## Geospatial lemmas -/

/-- The detector's haversine equals the formula as the spec words it. -/
theorem hav_ps_spec (a b c d : ℝ) :
    ProcessingService.haversine_distance a b c d = spec_haversine a b c d := by
  simp only [ProcessingService.haversine_distance, spec_haversine]
  ring_nf

/-- The consumer's haversine equals the formula as the spec words it. -/
theorem hav_cons_spec (a b c d : ℝ) :
    haversine_distance a b c d = spec_haversine a b c d := by
  simp only [haversine_distance, spec_haversine]
  ring_nf

/-- Haversine of a point with itself is zero. -/
theorem hav_self (la ln : ℝ) : haversine_distance la ln la ln = 0 := by
  simp [haversine_distance, radians, atan2]

/-- Haversine is symmetric in its two points. -/
theorem hav_symm (la1 ln1 la2 ln2 : ℝ) :
    haversine_distance la1 ln1 la2 ln2 = haversine_distance la2 ln2 la1 ln1 := by
  have h1 : radians (la1 - la2) / 2 = -(radians (la2 - la1) / 2) := by
    simp only [radians]; ring
  have h2 : radians (ln1 - ln2) / 2 = -(radians (ln2 - ln1) / 2) := by
    simp only [radians]; ring
  simp only [haversine_distance, h1, h2, Real.sin_neg, neg_mul_neg]
  ring_nf

/-- C9: both source copies of the distance function implement exactly the
haversine formula of the spec (radian conversion, a, c, times 6371), and
consequently the distance from a point to itself is 0 and the distance is
symmetric in its endpoints (exactly, hence also approximately). -/
theorem C9_haversine_implements_spec_formula :
    (∀ a b c d : ℝ,
      ProcessingService.haversine_distance a b c d = spec_haversine a b c d) ∧
    (∀ a b c d : ℝ, haversine_distance a b c d = spec_haversine a b c d) ∧
    (∀ la ln : ℝ, haversine_distance la ln la ln = 0) ∧
    (∀ a b c d : ℝ,
      haversine_distance a b c d = haversine_distance c d a b) :=
  ⟨hav_ps_spec, hav_cons_spec, hav_self, fun a b c d => hav_symm a b c d⟩

/-- Concrete pre-state for the C2 evaluation: bike "b" cached at station
1 at time 100 with an open stay row there; stations 1 and 2 exist.  The
claim asserts that observing the bike at station 2 closes the stay, opens
a new one and inserts one movement. -/
noncomputable def c2State : SysState :=
  { stations := fun u =>
      if u = 1 then some ⟨1, "A", 47.5, 19.0⟩
      else if u = 2 then some ⟨2, "B", 47.51, 19.01⟩
      else none
    stays := [⟨"b", 1, 100, none⟩]
    movements := []
    cache := fun n => if n = "b" then some ⟨1, 100⟩ else none
    occupancy := fun _ => ∅ }

/-- Concrete state for C6: bike "42" cached at station 1 at time 100 with
an open stay there; the bike is then re-observed at station 1 at time 110. -/
def c6State : SysState :=
  { stations := fun _ => none
    stays := [⟨"42", 1, 100, none⟩]
    movements := []
    cache := fun n => if n = "42" then some ⟨1, 100⟩ else none
    occupancy := fun _ => ∅ }

/-- C6: the no-move case does not behave as specified.  The call raises
before even reaching the no-move branch: processing.py line 50 evaluates
the undefined `models.BikeStay` (AttributeError); and had the stay query
worked, the no-move branch would still raise at line 68, because the
BikeState schema (bike_data.py lines 30-35) has no `stay_start_time`
field, while the second `set_bike_state` (lines 117-120) would drop the
field in any case.  Either way the call fails with no write at all: the
cache entry keeps the stale timestamp 100 instead of keeping
`stay_start_time` unchanged and refreshing only `timestamp` to 110. -/
theorem C6_no_move_raises_and_writes_nothing :
    ProcessingService.detect_and_record_movement c6State "42" 1 110
      = (c6State, false) ∧
    (ProcessingService.detect_and_record_movement c6State "42" 1 110).1.cache
      "42" = some ⟨1, 100⟩ :=
  ⟨rfl, rfl⟩

/-- A snapshot holding exactly one place with one bike list. -/
def singleSnap (uid : Int) (la ln : ℝ) (nm : String) (bs : List Bike) :
    ApiResponse :=
  ⟨[⟨[⟨[⟨uid, la, ln, nm, true, bs⟩]⟩]⟩]⟩

/-- Per-bike detection always raises, so the bike loop never changes the
state: it either has no bike to process or aborts on the first one. -/
theorem detect_all_state (bikes : List Bike) (st : SysState) (uid : Int)
    (now : ℚ) : (ProcessingService.detect_all st bikes uid now).1 = st := by
  cases bikes with
  | nil => rfl
  | cons bk rest => rfl

/-- One station iteration writes only the station row and the occupancy
set: the stay and movement tables are untouched. -/
theorem process_place_stays_movements (st : SysState) (p : StationSchema)
    (now : ℚ) :
    (ProcessingService.process_place st p now).1.stays = st.stays ∧
    (ProcessingService.process_place st p now).1.movements = st.movements := by
  unfold ProcessingService.process_place
  by_cases hp : p.spot = false
  · rw [if_pos hp]
    exact ⟨rfl, rfl⟩
  · rw [if_neg hp]
    rw [detect_all_state]
    exact ⟨rfl, rfl⟩

/-- The station loop never touches the stay or movement tables. -/
theorem process_places_stays_movements (places : List StationSchema) :
    ∀ (st : SysState) (now : ℚ),
      (ProcessingService.process_places st places now).1.stays = st.stays ∧
      (ProcessingService.process_places st places now).1.movements
        = st.movements := by
  induction places with
  | nil => intro st now; exact ⟨rfl, rfl⟩
  | cons p rest ih =>
    intro st now
    unfold ProcessingService.process_places
    rcases hp : ProcessingService.process_place st p now with ⟨st1, ok⟩
    have h2 := process_place_stays_movements st p now
    rw [hp] at h2
    cases ok
    · simpa using h2
    · have h3 := ih st1 now
      exact ⟨h3.1.trans h2.1, h3.2.trans h2.2⟩

/-- No sequence of processed snapshots ever writes a stay or movement row
through ProcessingService: every per-bike detection raises at
processing.py line 50 first. -/
theorem applySnapshots_stays_movements (l : List (ApiResponse × ℚ)) :
    ∀ st : SysState,
      (ProcessingService.applySnapshots st l).stays = st.stays ∧
      (ProcessingService.applySnapshots st l).movements = st.movements := by
  induction l with
  | nil => intro st; exact ⟨rfl, rfl⟩
  | cons sn rest ih =>
    intro st
    rcases sn with ⟨snap, now⟩
    have h1 := process_places_stays_movements (placesOfSnapshot snap) st now
    have h2 := ih (ProcessingService.process_snapshot st snap now).1
    exact ⟨h2.1.trans h1.1, h2.2.trans h1.2⟩

/-- C1 (code-bug evaluation): per-bike detection raises AttributeError at
processing.py line 50 on every call because `models.BikeStay` is
undefined, so no stay row is ever opened or closed: after any snapshot
sequence from the empty state the stay table is empty, the at-most-one
bound of the claim holds only vacuously, and the claimed mechanism never
executes - concretely, the first sighting of bike "w" raises and opens no
stay. -/
theorem C1_stays_never_written :
    (∀ l : List (ApiResponse × ℚ),
      (ProcessingService.applySnapshots emptyState l).stays = []) ∧
    (ProcessingService.process_snapshot emptyState
        (singleSnap 1 47.5 19.0 "A" [⟨"w"⟩]) 1000).2 = false ∧
    (ProcessingService.process_snapshot emptyState
        (singleSnap 1 47.5 19.0 "A" [⟨"w"⟩]) 1000).1.stays = [] :=
  ⟨fun l => (applySnapshots_stays_movements l emptyState).1, rfl, rfl⟩

/-- C2 (code-bug evaluation): on the concrete moved observation (cached at
station 1, observed at station 2) the detector raises at processing.py
line 50 before any branch: the call fails and the store is untouched - the
active stay stays open, no new stay is created, and no movement row is
inserted, where the claim asserts a stay close at last.timestamp, a new
open stay and exactly one movement insert. -/
theorem C2_moved_detection_raises_without_writes :
    ProcessingService.detect_and_record_movement c2State "b" 2 110
      = (c2State, false) ∧
    (ProcessingService.detect_and_record_movement c2State "b" 2 110).1.stays
      = [⟨"b", 1, 100, none⟩] ∧
    (ProcessingService.detect_and_record_movement
        c2State "b" 2 110).1.movements = [] :=
  ⟨rfl, rfl, rfl⟩

/-- C4 (code-bug evaluation): for a bike observed at A, then at A again
any number of times, then at B, processing the whole sequence from the
empty state records zero movements and zero stay closes - not exactly one
of each - because every per-bike detection raises at processing.py line 50
and the final snapshot aborts before the movement insert of line 96. -/
theorem C4_sequence_records_nothing (A B : Int) (la ln lb lnb : ℝ)
    (nm nm2 b : String) (t1 t2 : ℚ) (ts : List ℚ) :
    (ProcessingService.applySnapshots emptyState
        (((singleSnap A la ln nm [⟨b⟩], t1)
          :: ts.map fun t => (singleSnap A la ln nm [⟨b⟩], t))
          ++ [(singleSnap B lb lnb nm2 [⟨b⟩], t2)])).movements = [] ∧
    closedAtCount (ProcessingService.applySnapshots emptyState
        (((singleSnap A la ln nm [⟨b⟩], t1)
          :: ts.map fun t => (singleSnap A la ln nm [⟨b⟩], t))
          ++ [(singleSnap B lb lnb nm2 [⟨b⟩], t2)])) b A = 0 := by
  have h := applySnapshots_stays_movements
    (((singleSnap A la ln nm [⟨b⟩], t1)
      :: ts.map fun t => (singleSnap A la ln nm [⟨b⟩], t))
      ++ [(singleSnap B lb lnb nm2 [⟨b⟩], t2)]) emptyState
  refine ⟨h.2, ?_⟩
  unfold closedAtCount
  rw [h.1]
  rfl

/-- A city with its non-docking (`spot = false`) entries removed. -/
def filterCity (ci : City) : City := ⟨ci.places.filter (fun p => p.spot)⟩

/-- A snapshot with every non-docking entry removed. -/
def filterSnapshot (S : ApiResponse) : ApiResponse :=
  ⟨S.countries.map (fun co => ⟨co.cities.map filterCity⟩)⟩

theorem allCities_filterSnapshot (countries : List Country) :
    allCities ((filterSnapshot ⟨countries⟩).countries)
      = (allCities countries).map filterCity := by
  induction countries with
  | nil => rfl
  | cons co rest ih =>
    simp only [filterSnapshot, List.map_cons, allCities, List.map_append]
    simp only [filterSnapshot] at ih
    rw [ih]

theorem allPlaces_map_filterCity (cities : List City) :
    allPlaces (cities.map filterCity)
      = (allPlaces cities).filter (fun p => p.spot) := by
  induction cities with
  | nil => rfl
  | cons ci rest ih =>
    simp only [List.map_cons, allPlaces, filterCity, List.filter_append, ih]

theorem process_places_filter :
    ∀ (places : List StationSchema) (st : SysState) (now : ℚ),
      ProcessingService.process_places st
          (places.filter (fun p => p.spot)) now
        = ProcessingService.process_places st places now
  | [], st, now => rfl
  | p :: rest, st, now => by
    cases hp : p.spot with
    | true =>
      simp only [List.filter_cons, hp, if_true]
      unfold ProcessingService.process_places
      rcases hpp : ProcessingService.process_place st p now with ⟨st1, ok⟩
      cases ok
      · rfl
      · exact process_places_filter rest st1 now
    | false =>
      have hskip : ProcessingService.process_place st p now = (st, true) := by
        unfold ProcessingService.process_place
        rw [if_pos hp]
      simp only [List.filter_cons, hp]
      conv_rhs => unfold ProcessingService.process_places
      rw [hskip]
      exact process_places_filter rest st now

theorem handle_places_filter :
    ∀ (places : List StationSchema) (st : SysState) (now : ℚ),
      DataConsumer.handle_places st (places.filter (fun p => p.spot)) now
        = DataConsumer.handle_places st places now
  | [], st, now => rfl
  | p :: rest, st, now => by
    cases hp : p.spot with
    | true =>
      simp only [List.filter_cons, hp, if_true]
      unfold DataConsumer.handle_places
      simp only [hp, Bool.true_eq_false, if_false]
      rw [handle_places_filter rest]
    | false =>
      simp only [List.filter_cons, hp]
      conv_rhs => unfold DataConsumer.handle_places
      simp only [hp, if_true, reduceIte]
      exact handle_places_filter rest st now

theorem handle_city_filter (ci : City) (st : SysState) (now : ℚ) :
    DataConsumer.handle_city st (filterCity ci) now
      = DataConsumer.handle_city st ci now := by
  unfold DataConsumer.handle_city
  rw [show (filterCity ci).places = ci.places.filter (fun p => p.spot)
    from rfl, handle_places_filter]

theorem handle_cities_filter :
    ∀ (cs : List City) (st : SysState) (now : ℚ),
      DataConsumer.handle_cities st (cs.map filterCity) now
        = DataConsumer.handle_cities st cs now
  | [], st, now => rfl
  | ci :: rest, st, now => by
    unfold DataConsumer.handle_cities
    simp only [List.map_cons, handle_city_filter, handle_cities_filter rest]

/-- C5: snapshot entries with `spot = false` contribute nothing in either
pipeline: processing a snapshot equals processing the snapshot with every
such entry removed, as store state, cache state, and (for the consumer)
the full external write trace. -/
theorem C5_spot_false_entries_ignored (st : SysState) (S : ApiResponse)
    (now : ℚ) :
    ProcessingService.process_snapshot st (filterSnapshot S) now
      = ProcessingService.process_snapshot st S now ∧
    DataConsumer.handle_snapshot st (filterSnapshot S) now
      = DataConsumer.handle_snapshot st S now := by
  rcases S with ⟨countries⟩
  constructor
  · unfold ProcessingService.process_snapshot placesOfSnapshot
    rw [allCities_filterSnapshot, allPlaces_map_filterCity,
      process_places_filter]
  · unfold DataConsumer.handle_snapshot
    rw [allCities_filterSnapshot, handle_cities_filter]

/-- True for the four data writes of the consumer path (station upsert,
occupancy replace, movement insert, cache set); false for stay writes and
broker operations. -/
def Effect.isDataWrite : Effect → Bool
  | .stationUpsert _ => true
  | .occupancyReplace _ _ => true
  | .movementInsert _ => true
  | .cacheSet _ _ => true
  | _ => false

theorem applyEffects_dataWrite_stays (effs : List Effect)
    (h : ∀ e ∈ effs, e.isDataWrite = true) :
    ∀ st : SysState, (applyEffects st effs).stays = st.stays := by
  induction effs with
  | nil => intro st; rfl
  | cons e rest ih =>
    intro st
    have he : e.isDataWrite = true := h e (by simp)
    have hrest : ∀ x ∈ rest, x.isDataWrite = true :=
      fun x hx => h x (by simp [hx])
    have hstep : (applyEffect st e).stays = st.stays := by
      cases e <;> simp_all [applyEffect, Effect.isDataWrite]
    calc (applyEffects st (e :: rest)).stays
        = (applyEffects (applyEffect st e) rest).stays := rfl
      _ = (applyEffect st e).stays := ih hrest _
      _ = st.stays := hstep

theorem detect_movement_effects (st : SysState) (b : String) (uid : Int)
    (now : ℚ) :
    (DataConsumer.detect_movement st b uid now).1.stays = st.stays ∧
    ∀ e ∈ (DataConsumer.detect_movement st b uid now).2,
      e.isDataWrite = true := by
  unfold DataConsumer.detect_movement
  cases hc : st.cache b with
  | none => simp [applyEffect, Effect.isDataWrite]
  | some last =>
    simp only
    by_cases hne : last.station_uid ≠ uid
    · rw [if_pos hne]
      simp [applyEffect, Effect.isDataWrite]
    · rw [if_neg hne]
      simp [applyEffect, Effect.isDataWrite]

theorem detect_bikes_effects (bikes : List Bike) :
    ∀ (st : SysState) (uid : Int) (now : ℚ),
      (DataConsumer.detect_bikes st bikes uid now).1.stays = st.stays ∧
      ∀ e ∈ (DataConsumer.detect_bikes st bikes uid now).2,
        e.isDataWrite = true := by
  induction bikes with
  | nil => intro st uid now; simp [DataConsumer.detect_bikes]
  | cons bk rest ih =>
    intro st uid now
    unfold DataConsumer.detect_bikes
    have h1 := detect_movement_effects st bk.number uid now
    have h2 := ih (DataConsumer.detect_movement st bk.number uid now).1 uid now
    constructor
    · rw [h2.1, h1.1]
    · intro e he
      simp only [List.mem_append] at he
      rcases he with he | he
      · exact h1.2 e he
      · exact h2.2 e he

theorem handle_places_effects (places : List StationSchema) :
    ∀ (st : SysState) (now : ℚ),
      (DataConsumer.handle_places st places now).1.stays = st.stays ∧
      (∀ e ∈ (DataConsumer.handle_places st places now).2.1,
        e.isDataWrite = true) ∧
      (∀ e ∈ (DataConsumer.handle_places st places now).2.2,
        e.isDataWrite = true) := by
  induction places with
  | nil => intro st now; simp [DataConsumer.handle_places]
  | cons p rest ih =>
    intro st now
    unfold DataConsumer.handle_places
    by_cases hp : p.spot = false
    · rw [if_pos hp]
      exact ih st now
    · rw [if_neg hp]
      have hup : (applyEffect st
          (.stationUpsert ⟨p.uid, p.name, p.lat, p.lng⟩)).stays = st.stays :=
        rfl
      have h1 := detect_bikes_effects p.bike_list
        (applyEffect st (.stationUpsert ⟨p.uid, p.name, p.lat, p.lng⟩))
        p.uid now
      have h2 := ih (DataConsumer.detect_bikes
        (applyEffect st (.stationUpsert ⟨p.uid, p.name, p.lat, p.lng⟩))
        p.bike_list p.uid now).1 now
      refine ⟨by rw [h2.1, h1.1, hup], ?_, ?_⟩
      · intro e he
        simp only [List.mem_cons, List.mem_append] at he
        rcases he with he | he | he
        · subst he; rfl
        · exact h1.2 e he
        · exact h2.2.1 e he
      · intro e he
        simp only [List.mem_cons] at he
        rcases he with he | he
        · subst he; rfl
        · exact h2.2.2 e he

theorem handle_city_effects (ci : City) (st : SysState) (now : ℚ) :
    (DataConsumer.handle_city st ci now).1.stays = st.stays ∧
    ∀ e ∈ (DataConsumer.handle_city st ci now).2,
      e.isDataWrite = true := by
  unfold DataConsumer.handle_city
  have h := handle_places_effects ci.places st now
  constructor
  · rw [applyEffects_dataWrite_stays _ h.2.2, h.1]
  · intro e he
    simp only [List.mem_append] at he
    rcases he with he | he
    · exact h.2.1 e he
    · exact h.2.2 e he

theorem handle_cities_effects (cs : List City) :
    ∀ (st : SysState) (now : ℚ),
      (DataConsumer.handle_cities st cs now).1.stays = st.stays ∧
      ∀ e ∈ (DataConsumer.handle_cities st cs now).2,
        e.isDataWrite = true := by
  induction cs with
  | nil => intro st now; simp [DataConsumer.handle_cities]
  | cons ci rest ih =>
    intro st now
    unfold DataConsumer.handle_cities
    have h1 := handle_city_effects ci st now
    have h2 := ih (DataConsumer.handle_city st ci now).1 now
    constructor
    · rw [h2.1, h1.1]
    · intro e he
      simp only [List.mem_append] at he
      rcases he with he | he
      · exact h1.2 e he
      · exact h2.2 e he

theorem handle_snapshot_effects (st : SysState) (snap : ApiResponse)
    (now : ℚ) :
    (DataConsumer.handle_snapshot st snap now).1.stays = st.stays ∧
    ∀ e ∈ (DataConsumer.handle_snapshot st snap now).2,
      e.isDataWrite = true :=
  handle_cities_effects (allCities snap.countries) st now

/-- C7 counterexample: handling a concrete malformed message (for example
one whose uid is a non-numeric string, failing pydantic validation) issues
an acknowledge but no trim: the consumer source contains no XTRIM call at
all, so the trace of broker operations lacks any trim.  This refutes the
claim that such a message is acknowledged and trimmed. -/
theorem C7_counterexample_no_trim_issued :
    Effect.xtrim ∉ (DataConsumer.handle_message emptyState "m1"
      (Except.error ParseErr.validation) 0 none).2.1 := by
  simp [DataConsumer.handle_message]

/-- C7 amended: a message whose payload fails to parse or validate is
acknowledged (without any trim), so it is never redelivered; the handler
performs zero station, movement, stay or cache writes for it, leaves the
state untouched, and returns normally. -/
theorem C7_parse_failure_acked_no_writes (st : SysState) (id : String)
    (e : ParseErr) (now : ℚ) (fault : Option Nat) :
    DataConsumer.handle_message st id (.error e) now fault
      = (st, [Effect.xack id], Outcome.discarded) := rfl

/-- C8: a validly parsed message whose detection/persistence step raises
is left un-acknowledged (outcome pending, no xack in its trace) and the
message loop still handles every delivered message (one outcome per
message, no termination). -/
theorem C8_processing_failure_unacked_loop_continues :
    (∀ (st : SysState) (id : String) (snap : ApiResponse) (now : ℚ)
      (k : Nat),
      (DataConsumer.handle_message st id (.ok snap) now (some k)).2.2
        = Outcome.pending ∧
      ∀ s, Effect.xack s
        ∉ (DataConsumer.handle_message st id (.ok snap) now (some k)).2.1) ∧
    (∀ (st : SysState) (msgs : List DataConsumer.StreamMessage),
      (DataConsumer.process_messages st msgs).2.length = msgs.length) := by
  constructor
  · intro st id snap now k
    refine ⟨rfl, fun s hs => ?_⟩
    have hmem : Effect.xack s ∈ (DataConsumer.handle_snapshot st snap now).2 :=
      List.take_subset k _ hs
    have := (handle_snapshot_effects st snap now).2 _ hmem
    simp [Effect.isDataWrite] at this
  · intro st msgs
    induction msgs generalizing st with
    | nil => rfl
    | cons m rest ih =>
      simp only [DataConsumer.process_messages, List.length_cons, ih]

/-- C10: the wired service path (main starts DataConsumer, whose
handle_message drives detect_movement) never creates, closes or modifies
any BikeStay row: the stay table is unchanged for every message, parse
outcome and fault, and no effect in the trace is a stay write; stay
tracking lives only in ProcessingService, which no executable path of the
service invokes. -/
theorem C10_wired_path_writes_no_stays (st : SysState) (id : String)
    (payload : Except ParseErr ApiResponse) (now : ℚ) (fault : Option Nat) :
    (DataConsumer.handle_message st id payload now fault).1.stays = st.stays ∧
    ∀ e ∈ (DataConsumer.handle_message st id payload now fault).2.1,
      (∀ s, e ≠ Effect.stayCreate s) ∧ ∀ b t, e ≠ Effect.stayEnd b t := by
  cases payload with
  | error e =>
    refine ⟨rfl, fun e he => ?_⟩
    simp only [DataConsumer.handle_message, List.mem_singleton] at he
    subst he
    exact ⟨fun s => by simp, fun b t => by simp⟩
  | ok snap =>
    have hfull := handle_snapshot_effects st snap now
    cases fault with
    | none =>
      constructor
      · simpa [DataConsumer.handle_message] using hfull.1
      · intro e he
        simp only [DataConsumer.handle_message, List.mem_append,
          List.mem_singleton] at he
        rcases he with he | he
        · have := hfull.2 e he
          cases e <;> simp_all [Effect.isDataWrite]
        · subst he
          exact ⟨fun s => by simp, fun b t => by simp⟩
    | some k =>
      constructor
      · show (applyEffects st
            ((DataConsumer.handle_snapshot st snap now).2.take k)).stays
          = st.stays
        exact applyEffects_dataWrite_stays _
          (fun e he => hfull.2 e (List.take_subset k _ he)) st
      · intro e he
        simp only [DataConsumer.handle_message] at he
        have := hfull.2 e (List.take_subset k _ he)
        cases e <;> simp_all [Effect.isDataWrite]

/-- A snapshot listing the same bike at two different stations. -/
noncomputable def c3Snap : ApiResponse :=
  ⟨[⟨[⟨[⟨1, 47.5, 19.0, "A", true, [⟨"b"⟩]⟩,
        ⟨2, 47.51, 19.01, "B", true, [⟨"b"⟩]⟩]⟩]⟩]⟩

theorem c3_first_len :
    (DataConsumer.handle_snapshot emptyState c3Snap 0).1.movements.length
      = 1 := by
  simp [DataConsumer.handle_snapshot, allCities, c3Snap,
    DataConsumer.handle_cities, DataConsumer.handle_city,
    DataConsumer.handle_places, DataConsumer.detect_bikes,
    DataConsumer.detect_movement, applyEffect, applyEffects, emptyState,
    bikeNumbersOf, Function.update_apply]

theorem c3_second_len :
    (DataConsumer.handle_snapshot
        (DataConsumer.handle_snapshot emptyState c3Snap 0).1 c3Snap
        1).1.movements.length = 3 := by
  simp [DataConsumer.handle_snapshot, allCities, c3Snap,
    DataConsumer.handle_cities, DataConsumer.handle_city,
    DataConsumer.handle_places, DataConsumer.detect_bikes,
    DataConsumer.detect_movement, applyEffect, applyEffects, emptyState,
    bikeNumbersOf, Function.update_apply]

/-- C3 counterexample: for the snapshot that lists bike "b" at station 1
and again at station 2, replaying the identical snapshot right after its
first application creates two additional BikeMovement rows (each replay
bounces the cached station between the two listings), refuting the claim
for arbitrary snapshots. -/
theorem C3_counterexample_duplicate_bike :
    ¬ (DataConsumer.handle_snapshot
          (DataConsumer.handle_snapshot emptyState c3Snap 0).1 c3Snap
          1).1.movements.length
        = (DataConsumer.handle_snapshot
            emptyState c3Snap 0).1.movements.length := by
  rw [c3_first_len, c3_second_len]
  decide

/-- The (bike number, station uid) pairs a place list will feed to
per-bike detection, in iteration order. -/
def occsPlaces : List StationSchema → List (String × Int)
  | [] => []
  | p :: rest =>
    (if p.spot then p.bike_list.map (fun bk => (bk.number, p.uid)) else [])
      ++ occsPlaces rest

/-- Occurrences over a list of cities. -/
def occsCities : List City → List (String × Int)
  | [] => []
  | ci :: rest => occsPlaces ci.places ++ occsCities rest

/-- Occurrences of a whole snapshot in processing order. -/
def occsSnapshot (S : ApiResponse) : List (String × Int) :=
  occsCities (allCities S.countries)

/-- Every bike of the occurrence list is listed at a single station. -/
def UniqueStation (L : List (String × Int)) : Prop :=
  ∀ p ∈ L, ∀ q ∈ L, p.1 = q.1 → p.2 = q.2

/-- The cache already maps every occurring bike to its station. -/
def CacheGood (st : SysState) (L : List (String × Int)) : Prop :=
  ∀ p ∈ L, ∃ ts : ℚ, st.cache p.1 = some ⟨p.2, ts⟩

theorem uniqueStation_append_left {l1 l2 : List (String × Int)}
    (h : UniqueStation (l1 ++ l2)) : UniqueStation l1 :=
  fun p hp q hq => h p (List.mem_append_left _ hp) q (List.mem_append_left _ hq)

theorem uniqueStation_append_right {l1 l2 : List (String × Int)}
    (h : UniqueStation (l1 ++ l2)) : UniqueStation l2 :=
  fun p hp q hq =>
    h p (List.mem_append_right _ hp) q (List.mem_append_right _ hq)

theorem cacheGood_append {st : SysState} {l1 l2 : List (String × Int)} :
    CacheGood st (l1 ++ l2) ↔ CacheGood st l1 ∧ CacheGood st l2 := by
  constructor
  · intro h
    exact ⟨fun p hp => h p (List.mem_append_left _ hp),
      fun p hp => h p (List.mem_append_right _ hp)⟩
  · intro h p hp
    rcases List.mem_append.mp hp with hp | hp
    · exact h.1 p hp
    · exact h.2 p hp

theorem cdetect_cache (st : SysState) (b : String) (uid : Int) (now : ℚ) :
    (DataConsumer.detect_movement st b uid now).1.cache
      = Function.update st.cache b (some ⟨uid, now⟩) := by
  unfold DataConsumer.detect_movement
  cases hc : st.cache b with
  | none => rfl
  | some last =>
    simp only
    by_cases hne : last.station_uid ≠ uid
    · rw [if_pos hne]
      rfl
    · rw [if_neg hne]
      rfl

theorem cdetect_movements_same_station (st : SysState) (b : String)
    (s : Int) (now ts : ℚ) (h : st.cache b = some ⟨s, ts⟩) :
    (DataConsumer.detect_movement st b s now).1.movements = st.movements := by
  unfold DataConsumer.detect_movement
  rw [h]
  simp [applyEffect]

theorem cbikes_cache (bikes : List Bike) :
    ∀ (st : SysState) (uid : Int) (now : ℚ) (b : String),
      (DataConsumer.detect_bikes st bikes uid now).1.cache b
        = if b ∈ bikes.map Bike.number then some ⟨uid, now⟩
          else st.cache b := by
  induction bikes with
  | nil =>
    intro st uid now b
    simp [DataConsumer.detect_bikes]
  | cons bk rest ih =>
    intro st uid now b
    unfold DataConsumer.detect_bikes
    by_cases hb : b ∈ rest.map Bike.number
    · simp [ih, hb]
    · simp only [ih, hb, if_false]
      rw [cdetect_cache]
      by_cases he : b = bk.number
      · subst he
        simp [Function.update_same]
      · rw [Function.update_noteq he]
        simp only [List.map_cons, List.mem_cons]
        rw [if_neg (by
          intro hor
          rcases hor with hor | hor
          · exact he hor
          · exact hb hor)]

theorem cdetect_good (L0 : List (String × Int)) (hU : UniqueStation L0)
    (st : SysState) (b : String) (s : Int) (now : ℚ)
    (hmem : (b, s) ∈ L0) (hG : CacheGood st L0) :
    (DataConsumer.detect_movement st b s now).1.movements = st.movements ∧
    CacheGood (DataConsumer.detect_movement st b s now).1 L0 := by
  rcases hG (b, s) hmem with ⟨ts, hts⟩
  constructor
  · exact cdetect_movements_same_station st b s now ts hts
  · intro q hq
    rw [cdetect_cache]
    by_cases hqb : q.1 = b
    · have hqs : q.2 = s := hU q hq (b, s) hmem hqb
      rw [hqb, Function.update_same]
      exact ⟨now, by rw [hqs]⟩
    · rw [Function.update_noteq hqb]
      exact hG q hq

theorem cbikes_good (L0 : List (String × Int)) (hU : UniqueStation L0)
    (bikes : List Bike) :
    ∀ (st : SysState) (uid : Int) (now : ℚ),
      (∀ bk ∈ bikes, (bk.number, uid) ∈ L0) → CacheGood st L0 →
      (DataConsumer.detect_bikes st bikes uid now).1.movements
        = st.movements ∧
      CacheGood (DataConsumer.detect_bikes st bikes uid now).1 L0 := by
  induction bikes with
  | nil =>
    intro st uid now _ hG
    exact ⟨rfl, hG⟩
  | cons bk rest ih =>
    intro st uid now hmem hG
    unfold DataConsumer.detect_bikes
    have h1 := cdetect_good L0 hU st bk.number uid now
      (hmem bk (by simp)) hG
    have h2 := ih (DataConsumer.detect_movement st bk.number uid now).1
      uid now (fun x hx => hmem x (by simp [hx])) h1.2
    exact ⟨by rw [h2.1, h1.1], h2.2⟩

theorem handle_places_pops (places : List StationSchema) :
    ∀ (st : SysState) (now : ℚ) (e : Effect),
      e ∈ (DataConsumer.handle_places st places now).2.2 →
      ∃ u bs, e = Effect.occupancyReplace u bs := by
  induction places with
  | nil =>
    intro st now e he
    simp [DataConsumer.handle_places] at he
  | cons p rest ih =>
    intro st now e he
    unfold DataConsumer.handle_places at he
    by_cases hp : p.spot = false
    · rw [if_pos hp] at he
      exact ih st now e he
    · rw [if_neg hp] at he
      simp only [List.mem_cons] at he
      rcases he with he | he
      · exact ⟨p.uid, bikeNumbersOf p, he⟩
      · exact ih _ now e he

theorem applyEffects_occ_preserves (effs : List Effect)
    (h : ∀ e ∈ effs, ∃ u bs, e = Effect.occupancyReplace u bs) :
    ∀ st : SysState, (applyEffects st effs).cache = st.cache ∧
      (applyEffects st effs).movements = st.movements := by
  induction effs with
  | nil => intro st; exact ⟨rfl, rfl⟩
  | cons e rest ih =>
    intro st
    rcases h e (by simp) with ⟨u, bs, he⟩
    subst he
    have ihr := ih (fun x hx => h x (by simp [hx]))
      (applyEffect st (Effect.occupancyReplace u bs))
    exact ⟨ihr.1, ihr.2⟩

theorem cplaces_good (L0 : List (String × Int)) (hU : UniqueStation L0)
    (places : List StationSchema) :
    ∀ (st : SysState) (now : ℚ),
      occsPlaces places ⊆ L0 → CacheGood st L0 →
      (DataConsumer.handle_places st places now).1.movements
        = st.movements ∧
      CacheGood (DataConsumer.handle_places st places now).1 L0 := by
  induction places with
  | nil =>
    intro st now _ hG
    exact ⟨rfl, hG⟩
  | cons p rest ih =>
    intro st now hsub hG
    unfold DataConsumer.handle_places
    by_cases hp : p.spot = false
    · rw [if_pos hp]
      refine ih st now (fun q hq => hsub ?_) hG
      simp only [occsPlaces, hp, if_false, List.nil_append]
      exact hq
    · rw [if_neg hp]
      have hspot : p.spot = true := by
        cases hsp : p.spot
        · exact absurd hsp hp
        · rfl
      have hsub2 : (p.bike_list.map (fun bk => (bk.number, p.uid)))
          ++ occsPlaces rest ⊆ L0 := by
        intro q hq
        refine hsub ?_
        simpa [occsPlaces, hspot] using hq
      have hbk : ∀ bk ∈ p.bike_list, (bk.number, p.uid) ∈ L0 := by
        intro bk hbk
        exact hsub2 (List.mem_append_left _
          (List.mem_map_of_mem _ hbk))
      have h1 := cbikes_good L0 hU p.bike_list
        (applyEffect st (.stationUpsert ⟨p.uid, p.name, p.lat, p.lng⟩))
        p.uid now hbk hG
      have h2 := ih (DataConsumer.detect_bikes
        (applyEffect st (.stationUpsert ⟨p.uid, p.name, p.lat, p.lng⟩))
        p.bike_list p.uid now).1 now
        (fun q hq => hsub2 (List.mem_append_right _ hq)) h1.2
      exact ⟨by rw [h2.1, h1.1]; exact rfl, h2.2⟩

theorem ccity_good (L0 : List (String × Int)) (hU : UniqueStation L0)
    (ci : City) (st : SysState) (now : ℚ)
    (hsub : occsPlaces ci.places ⊆ L0) (hG : CacheGood st L0) :
    (DataConsumer.handle_city st ci now).1.movements = st.movements ∧
    CacheGood (DataConsumer.handle_city st ci now).1 L0 := by
  unfold DataConsumer.handle_city
  have h1 := cplaces_good L0 hU ci.places st now hsub hG
  have h2 := applyEffects_occ_preserves
    (DataConsumer.handle_places st ci.places now).2.2
    (handle_places_pops ci.places st now)
    (DataConsumer.handle_places st ci.places now).1
  constructor
  · rw [h2.2, h1.1]
  · intro q hq
    rw [h2.1]
    exact h1.2 q hq

theorem ccities_good (L0 : List (String × Int)) (hU : UniqueStation L0)
    (cs : List City) :
    ∀ (st : SysState) (now : ℚ),
      occsCities cs ⊆ L0 → CacheGood st L0 →
      (DataConsumer.handle_cities st cs now).1.movements = st.movements ∧
      CacheGood (DataConsumer.handle_cities st cs now).1 L0 := by
  induction cs with
  | nil =>
    intro st now _ hG
    exact ⟨rfl, hG⟩
  | cons ci rest ih =>
    intro st now hsub hG
    unfold DataConsumer.handle_cities
    have hsub1 : occsPlaces ci.places ⊆ L0 := by
      intro q hq
      exact hsub (by simpa [occsCities] using List.mem_append_left _ hq)
    have hsub2 : occsCities rest ⊆ L0 := by
      intro q hq
      exact hsub (by simpa [occsCities] using List.mem_append_right _ hq)
    have h1 := ccity_good L0 hU ci st now hsub1 hG
    have h2 := ih (DataConsumer.handle_city st ci now).1 now hsub2 h1.2
    exact ⟨by rw [h2.1, h1.1], h2.2⟩

theorem cplaces_cache_frame (places : List StationSchema) :
    ∀ (st : SysState) (now : ℚ) (b : String),
      b ∉ (occsPlaces places).map Prod.fst →
      (DataConsumer.handle_places st places now).1.cache b = st.cache b := by
  induction places with
  | nil => intro st now b _; rfl
  | cons p rest ih =>
    intro st now b hb
    unfold DataConsumer.handle_places
    by_cases hp : p.spot = false
    · rw [if_pos hp]
      refine ih st now b fun hmem => hb ?_
      simpa [occsPlaces, hp] using hmem
    · rw [if_neg hp]
      have hspot : p.spot = true := by
        cases hsp : p.spot
        · exact absurd hsp hp
        · rfl
      have hocc : (occsPlaces (p :: rest)).map Prod.fst
          = p.bike_list.map Bike.number ++ (occsPlaces rest).map Prod.fst := by
        simp [occsPlaces, hspot, List.map_map, Function.comp]
      rw [hocc] at hb
      simp only [List.mem_append] at hb
      push_neg at hb
      rw [ih _ now b hb.2, cbikes_cache, if_neg hb.1]
      rfl

theorem ccities_cache_frame (cs : List City) :
    ∀ (st : SysState) (now : ℚ) (b : String),
      b ∉ (occsCities cs).map Prod.fst →
      (DataConsumer.handle_cities st cs now).1.cache b = st.cache b := by
  induction cs with
  | nil => intro st now b _; rfl
  | cons ci rest ih =>
    intro st now b hb
    unfold DataConsumer.handle_cities DataConsumer.handle_city
    have hocc : (occsCities (ci :: rest)).map Prod.fst
        = (occsPlaces ci.places).map Prod.fst
          ++ (occsCities rest).map Prod.fst := by
      simp [occsCities]
    rw [hocc] at hb
    simp only [List.mem_append] at hb
    push_neg at hb
    have hpop := applyEffects_occ_preserves
      (DataConsumer.handle_places st ci.places now).2.2
      (handle_places_pops ci.places st now)
      (DataConsumer.handle_places st ci.places now).1
    rw [ih _ now b hb.2]
    simp only [hpop.1]
    exact cplaces_cache_frame ci.places st now b hb.1

theorem cplaces_cache_est (places : List StationSchema) :
    ∀ (st : SysState) (now : ℚ) (b : String) (s : Int),
      UniqueStation (occsPlaces places) → (b, s) ∈ occsPlaces places →
      (DataConsumer.handle_places st places now).1.cache b
        = some ⟨s, now⟩ := by
  induction places with
  | nil =>
    intro st now b s _ hmem
    simp [occsPlaces] at hmem
  | cons p rest ih =>
    intro st now b s hU hmem
    unfold DataConsumer.handle_places
    by_cases hp : p.spot = false
    · rw [if_pos hp]
      have hocc : occsPlaces (p :: rest) = occsPlaces rest := by
        simp [occsPlaces, hp]
      rw [hocc] at hU hmem
      exact ih st now b s hU hmem
    · rw [if_neg hp]
      have hspot : p.spot = true := by
        cases hsp : p.spot
        · exact absurd hsp hp
        · rfl
      have hocc : occsPlaces (p :: rest)
          = p.bike_list.map (fun bk => (bk.number, p.uid))
            ++ occsPlaces rest := by
        simp [occsPlaces, hspot]
      rw [hocc] at hU hmem
      by_cases hin : b ∈ (occsPlaces rest).map Prod.fst
      · rcases List.mem_map.mp hin with ⟨q, hq, hqb⟩
        have hq2 : (b, q.2) ∈ occsPlaces rest := by
          have : q = (b, q.2) := by
            rcases q with ⟨q1, q2⟩
            simp at hqb
            rw [hqb]
          rw [← this]
          exact hq
        have hseq : q.2 = s :=
          hU (b, q.2) (List.mem_append_right _ hq2) (b, s) hmem rfl
        rw [ih _ now b q.2 (uniqueStation_append_right hU) hq2, hseq]
      · have hhead : (b, s)
            ∈ p.bike_list.map (fun bk => (bk.number, p.uid)) := by
          rcases List.mem_append.mp hmem with h | h
          · exact h
          · exact absurd (List.mem_map.mpr ⟨(b, s), h, rfl⟩) hin
        rcases List.mem_map.mp hhead with ⟨bk, hbk, hbke⟩
        have hb : bk.number = b := congrArg Prod.fst hbke
        have hs : p.uid = s := congrArg Prod.snd hbke
        rw [cplaces_cache_frame rest _ now b hin, cbikes_cache,
          if_pos (by rw [← hb]; exact List.mem_map_of_mem _ hbk), hs]

theorem ccities_cache_est (cs : List City) :
    ∀ (st : SysState) (now : ℚ) (b : String) (s : Int),
      UniqueStation (occsCities cs) → (b, s) ∈ occsCities cs →
      (DataConsumer.handle_cities st cs now).1.cache b
        = some ⟨s, now⟩ := by
  induction cs with
  | nil =>
    intro st now b s _ hmem
    simp [occsCities] at hmem
  | cons ci rest ih =>
    intro st now b s hU hmem
    unfold DataConsumer.handle_cities DataConsumer.handle_city
    have hocc : occsCities (ci :: rest)
        = occsPlaces ci.places ++ occsCities rest := rfl
    rw [hocc] at hU hmem
    by_cases hin : b ∈ (occsCities rest).map Prod.fst
    · rcases List.mem_map.mp hin with ⟨q, hq, hqb⟩
      have hq2 : (b, q.2) ∈ occsCities rest := by
        have : q = (b, q.2) := by
          rcases q with ⟨q1, q2⟩
          simp at hqb
          rw [hqb]
        rw [← this]
        exact hq
      have hseq : q.2 = s :=
        hU (b, q.2) (List.mem_append_right _ hq2) (b, s) hmem rfl
      rw [ih _ now b q.2 (uniqueStation_append_right hU) hq2, hseq]
    · have hhead : (b, s) ∈ occsPlaces ci.places := by
        rcases List.mem_append.mp hmem with h | h
        · exact h
        · exact absurd (List.mem_map.mpr ⟨(b, s), h, rfl⟩) hin
      have hpop := applyEffects_occ_preserves
        (DataConsumer.handle_places st ci.places now).2.2
        (handle_places_pops ci.places st now)
        (DataConsumer.handle_places st ci.places now).1
      rw [ccities_cache_frame rest _ now b hin]
      simp only [hpop.1]
      exact cplaces_cache_est ci.places st now b s
        (uniqueStation_append_left hU) hhead

/-- C3 amended: restricted to snapshots in which no bike is listed at two
different stations, replaying the identical snapshot right after applying
it once (from any prior state) creates zero additional BikeMovement rows:
after the first application the cache maps every bike of the snapshot to
its station, so every per-bike detection of the replay takes the no-move
branch. -/
theorem C3_replay_adds_no_movements (st0 : SysState) (S : ApiResponse)
    (t1 t2 : ℚ) (hU : UniqueStation (occsSnapshot S)) :
    (DataConsumer.handle_snapshot
        (DataConsumer.handle_snapshot st0 S t1).1 S t2).1.movements
      = (DataConsumer.handle_snapshot st0 S t1).1.movements := by
  have hGood : CacheGood (DataConsumer.handle_snapshot st0 S t1).1
      (occsSnapshot S) := by
    intro q hq
    refine ⟨t1, ?_⟩
    rcases q with ⟨b, s⟩
    exact ccities_cache_est (allCities S.countries) st0 t1 b s hU hq
  exact (ccities_good (occsSnapshot S) hU (allCities S.countries)
    (DataConsumer.handle_snapshot st0 S t1).1 t2 (fun q hq => hq) hGood).1

/-- Witness instantiating the amended C3 on a concrete snapshot. -/
theorem C3_replay_adds_no_movements_witness :
    UniqueStation (occsSnapshot (singleSnap 1 47.5 19.0 "A" [⟨"w"⟩])) ∧
    (DataConsumer.handle_snapshot
        (DataConsumer.handle_snapshot emptyState
          (singleSnap 1 47.5 19.0 "A" [⟨"w"⟩]) 1000).1
        (singleSnap 1 47.5 19.0 "A" [⟨"w"⟩]) 1010).1.movements
      = (DataConsumer.handle_snapshot emptyState
          (singleSnap 1 47.5 19.0 "A" [⟨"w"⟩]) 1000).1.movements :=
  ⟨by unfold UniqueStation; decide,
    C3_replay_adds_no_movements emptyState
      (singleSnap 1 47.5 19.0 "A" [⟨"w"⟩]) 1000 1010
      (by unfold UniqueStation; decide)⟩
